import Mathlib

/-!
Shallow embedding of `src/new_alarm_mutex.c` (a POSIX-threads alarm
program).  Pure data and the bodies of the program's functions are
translated into executable Lean definitions; machine pointers are
modelled by values plus an explicit `gid` identity for display groups
(the C code distinguishes groups only by their `malloc`ed address),
and fallible or crashing code paths (NULL dereferences) return
`Option`.  Loops whose C termination is not structural are given
explicit fuel; the fuel is always sufficient on the states the C code
itself can construct, and where it is not, the fuel-out outcome is
reported explicitly rather than conflated with normal completion.
-/

/-- The `alarm_tag` structure (new_alarm_mutex.c, lines 28-36).  The
`link` pointer is represented by list structure; `type` is named `ty`
because `type` is reserved in Lean.  `time` is the absolute expiry
timestamp, `seconds` the requested interval. -/
structure alarm_t where
  seconds : Int
  time : Int
  message : String
  ty : String
  alarm_ID : Int
  is_assigned : Bool
deriving Repr, DecidableEq

/-- The `display_tag` structure (lines 38-43).  `gid` models the C
pointer identity of the `malloc`ed group (two groups with equal fields
are still distinct objects in C); `assigned_alarm` is the two-slot
array of non-owning alarm references. -/
structure display_t where
  gid : Nat
  ty : String
  assigned_alarm_count : Nat
  assigned_alarm : List (Option alarm_t)
deriving Repr, DecidableEq

/-- The display registry: the global `display_threads[10]` array and
`display_thread_count` (lines 50-51).  `next_gid` is the model's
allocator counter for fresh group identities. -/
structure DisplayState where
  display_threads : List (Option display_t)
  display_thread_count : Nat
  next_gid : Nat
deriving Repr, DecidableEq

/-- The initial global state: all ten array entries NULL, count zero. -/
def emptyDisplayState : DisplayState :=
  { display_threads := List.replicate 10 none
    display_thread_count := 0
    next_gid := 0 }

/-- Write a group back through every array entry whose identity matches:
in C all such entries are the same pointer, so a mutation through any
alias is visible through all of them. -/
def updateGroup (ds : DisplayState) (g : display_t) : DisplayState :=
  { ds with display_threads := ds.display_threads.map (fun o =>
      match o with
      | some h => if h.gid = g.gid then some g else some h
      | none => none) }

/-- Find a group in the array by identity (first matching entry). -/
def findGroup (ds : DisplayState) (gid : Nat) : Option display_t :=
  match ds.display_threads.findSome? (fun o =>
      match o with
      | some h => if h.gid = gid then some h else none
      | none => none) with
  | some h => some h
  | none => none

/-- The array-filling loop of `create_display_thread` (lines 127-131):
`for(i = 0; i < display_thread_count; i++) if (display_threads[i] == NULL)
display_threads[i] = new_thread;` — note the missing `break`: every NULL
entry in range is overwritten.  The second argument is the loop bound
(the already-incremented `display_thread_count`). -/
def fill_first_nulls (g : display_t) : List (Option display_t) → Nat → List (Option display_t)
  | l, 0 => l
  | [], _ => []
  | none :: rest, n + 1 => some g :: fill_first_nulls g rest n
  | some h :: rest, n + 1 => some h :: fill_first_nulls g rest n

/-- `create_display_thread` (lines 103-133).  Returns `none` when the
registry is at its capacity of 10 (line 104).  The C code `malloc`s the
group without initialising `assigned_alarm`; the model takes the slots
as initially empty, the benign reading.  The `pthread_create` call is
the spawning of the group's worker, whose per-cycle behaviour is
modelled separately by `display_thread_cycle`. -/
def create_display_thread (ds : DisplayState) (ty : String) : Option (display_t × DisplayState) :=
  if ds.display_thread_count ≥ 10 then none
  else
    let g : display_t :=
      { gid := ds.next_gid, ty := ty, assigned_alarm_count := 0,
        assigned_alarm := [none, none] }
    let cnt := ds.display_thread_count + 1
    some (g,
      { display_threads := fill_first_nulls g ds.display_threads cnt
        display_thread_count := cnt
        next_gid := ds.next_gid + 1 })

/-- The scan of `assign_alarm_to_display_thread` (lines 152-161): walk
`display_threads[i]` for `i < display_thread_count`, recording whether
any group of the right type was seen (`type_found`) and stopping at the
first one with `assigned_alarm_count < 2`.  Arguments: remaining array
suffix, remaining loop budget (`display_thread_count - i`), current
index `i`. -/
def scan_for_type (ty : String) : List (Option display_t) → Nat → Nat → Option (Nat × display_t) × Bool
  | _, 0, _ => (none, false)
  | [], _, _ => (none, false)
  | some g :: rest, n + 1, i =>
      if g.ty = ty then
        if g.assigned_alarm_count < 2 then (some (i, g), true)
        else ((scan_for_type ty rest n (i + 1)).1, true)
      else scan_for_type ty rest n (i + 1)
  | none :: rest, n + 1, i => scan_for_type ty rest n (i + 1)

/-- `assign_alarm_to_display_thread` (lines 138-185).  When no group of
the alarm's type has a free slot, both creation branches (lines 164-170)
immediately dereference the result of `create_display_thread` in the
creation log `printf` (`target_thread->threadid`), so a NULL result —
registry at capacity — crashes before the `target_thread != NULL` guard
at line 173 is reached; the crash is modelled as `none`.  On success the
alarm is written into slot `assigned_alarm_count`, which is then
incremented (line 174). -/
def assign_alarm_to_display_thread (ds : DisplayState) (a : alarm_t) : Option DisplayState :=
  match (scan_for_type a.ty ds.display_threads ds.display_thread_count 0).1 with
  | some (_, g) =>
      let g' := { g with
        assigned_alarm := g.assigned_alarm.set g.assigned_alarm_count (some a),
        assigned_alarm_count := g.assigned_alarm_count + 1 }
      some (updateGroup ds g')
  | none =>
      match create_display_thread ds a.ty with
      | none => none
      | some (g, ds') =>
          let g' := { g with
            assigned_alarm := g.assigned_alarm.set 0 (some a),
            assigned_alarm_count := 1 }
          some (updateGroup ds' g')

/-- Slot test of the cancel loop (line 202): the C code dereferences
`assigned_alarm[k]->alarm_ID` unconditionally, so probing an empty
slot below the loop bound is a NULL-pointer dereference — a crash,
modelled as `none`.  (Such states do arise: the shrinking-bound cancel
loop itself leaves a NULL slot 0 with `assigned_alarm_count = 1`.) -/
def slot_matches (g : display_t) (k : Nat) (id : Int) : Option Bool :=
  match g.assigned_alarm.getD k none with
  | some a => some (a.alarm_ID == id)
  | none => none

/-- The inner loop of `cancel_alarm_in_display_thread` (lines 199-209):
`for(k = 0; k < assigned_alarm_count; k++)` where a match clears the
slot and decrements the count — the bound shrinks while `k` grows.  The
fuel is the initial count, which bounds the number of iterations.
Probing a NULL slot below the bound crashes (`none`, from
`slot_matches`). -/
def cancel_loop (id : Int) : Nat → Nat → display_t → Option display_t
  | 0, _, g => some g
  | fuel + 1, k, g =>
      if k < g.assigned_alarm_count then
        match slot_matches g k id with
        | none => none
        | some true =>
            cancel_loop id fuel (k + 1)
              { g with assigned_alarm := g.assigned_alarm.set k none,
                       assigned_alarm_count := g.assigned_alarm_count - 1 }
        | some false => cancel_loop id fuel (k + 1) g
      else some g

/-- One group's portion of `cancel_alarm_in_display_thread`. -/
def cancel_in_group (id : Int) (g : display_t) : Option display_t :=
  cancel_loop id g.assigned_alarm_count 0 g

/-- `cancel_alarm_in_display_thread` (lines 187-216): scan every group
with index below `display_thread_count` and run the slot-clearing loop
on it, propagating a crash from the inner loop.  (An array entry below
the count is never NULL: entries are filled at creation and never
cleared, so the outer dereference at line 198 cannot itself fault.) -/
def cancel_alarm_in_display_thread (ds : DisplayState) (target : alarm_t) :
    Option DisplayState :=
  (List.range ds.display_thread_count).foldl (fun ods i =>
    match ods with
    | none => none
    | some ds =>
        match ds.display_threads.getD i none with
        | some g =>
            match cancel_in_group target.alarm_ID g with
            | none => none
            | some g' => some (updateGroup ds g')
        | none => some ds) (some ds)

/-- One slot of the worker's per-cycle scan (lines 69-82): an occupied
slot whose alarm has `now >= time` is cleared (line 76) — with no
change to `assigned_alarm_count` — otherwise `active_alarm` is
incremented. -/
def display_thread_scan_slot (now : Int) (p : display_t × Nat) (i : Nat) : display_t × Nat :=
  let (g, active) := p
  match g.assigned_alarm.getD i none with
  | some a =>
      if now ≥ a.time then
        ({ g with assigned_alarm := g.assigned_alarm.set i none }, active)
      else (g, active + 1)
  | none => (g, active)

/-- One full cycle of `display_thread`'s slot scan (both slots, lines
69-82), returning the updated group and the `active_alarm` count. -/
def display_thread_cycle (g : display_t) (now : Int) : display_t × Nat :=
  display_thread_scan_slot now (display_thread_scan_slot now (g, 0) 0) 1

/-- One cycle of the worker thread of the group at array index `i`,
at registry level (lines 61-97).  If `active_alarm` is zero the worker
frees its group and decrements `display_thread_count` (lines 84-92) —
the array entry `display_threads[i]` is never cleared. -/
def display_thread_step (ds : DisplayState) (i : Nat) (now : Int) : DisplayState :=
  match ds.display_threads.getD i none with
  | none => ds
  | some g =>
      let (g', active) := display_thread_cycle g now
      if active = 0 then
        { updateGroup ds g' with display_thread_count := ds.display_thread_count - 1 }
      else updateGroup ds g'

/-- `strncpy`-style truncation to at most `n` characters (the program's
inputs are ASCII, so characters coincide with the bytes `strncpy`
counts). -/
def strncpy_trunc (s : String) (n : Nat) : String :=
  String.mk (s.data.take n)

/-- Construction of a new alarm record by the `Start_Alarm` branch of
`main` (lines 365-374): `time = time(NULL) + seconds`, message copied
with `strncpy(.., 127)` and NUL-terminated, type copied with
`strncpy(.., 2)`, `is_assigned = 0`. -/
def start_alarm (now id : Int) (ty : String) (dur : Int) (msg : String) : alarm_t :=
  { seconds := dur
    time := now + dur
    message := strncpy_trunc msg 127
    ty := strncpy_trunc ty 2
    alarm_ID := id
    is_assigned := false }

/-- The sorted-insertion loop of `Start_Alarm` (lines 386-407): walk the
list and link the new record in front of the first record whose
`alarm_ID` is `>=` the new one, or at the end. -/
def insert_alarm (alarm : alarm_t) : List alarm_t → List alarm_t
  | [] => [alarm]
  | next :: rest =>
      if next.alarm_ID ≥ alarm.alarm_ID then alarm :: next :: rest
      else next :: insert_alarm alarm rest

/-- The `Change_Alarm` branch of `main` (lines 415-439): linear scan by
id; the first match gets `seconds` and `message` overwritten in place
(lines 427-428) and the loop breaks; no match leaves the list unchanged
and reports not-found (the returned Bool is `false`). -/
def change_alarm (id dur : Int) (msg : String) : List alarm_t → List alarm_t × Bool
  | [] => ([], false)
  | a :: rest =>
      if a.alarm_ID == id then
        ({ a with seconds := dur, message := strncpy_trunc msg 127 } :: rest, true)
      else
        let (l, found) := change_alarm id dur msg rest
        (a :: l, found)

/-- The list-unlinking part of the `Cancel_Alarm` branch of `main`
(lines 449-462): unlink and return the first record with the given id. -/
def cancel_alarm (id : Int) : List alarm_t → List alarm_t × Option alarm_t
  | [] => ([], none)
  | a :: rest =>
      if a.alarm_ID == id then (rest, some a)
      else
        let (l, r) := cancel_alarm id rest
        (a :: l, r)

/-- The whole `Cancel_Alarm` command (lines 441-468): unlink the first
matching record from the alarm list, then clear matching display slots
via `cancel_alarm_in_display_thread` (which the C code calls on the
already-freed record, using only its fields); a NULL dereference in
the display scan propagates as `none`. -/
def cancel_alarm_command (l : List alarm_t) (ds : DisplayState) (id : Int) :
    Option (List alarm_t × DisplayState) :=
  match cancel_alarm id l with
  | (l', some a) =>
      match cancel_alarm_in_display_thread ds a with
      | none => none
      | some ds' => some (l', ds')
  | (l', none) => some (l', ds)

/-- Lock events of the two global mutexes, as performed by one thread:
`A` is `alarm_mutex`, `D` is `display_mutex`. -/
inductive LEv where
  | lockA
  | unlockA
  | lockD
  | unlockD
deriving Repr, DecidableEq

/-- Effect of a lock event on the pair (alarm lock held, display lock
held) of the acting thread. -/
def applyEv : Bool × Bool → LEv → Bool × Bool
  | (_, d), .lockA => (true, d)
  | (_, d), .unlockA => (false, d)
  | (a, _), .lockD => (a, true)
  | (a, _), .unlockD => (a, false)

/-- `nestOK held evs` checks that, starting from the given held-locks
pair, after every event of `evs` the display lock is held only when the
alarm lock is also held (the nested-acquisition discipline). -/
def nestOK : Bool × Bool → List LEv → Bool
  | _, [] => true
  | st, e :: evs =>
      let st' := applyEv st e
      (!st'.2 || st'.1) && nestOK st' evs

/-- `bothHeldAt held evs` is true when at some point of `evs` the
acting thread holds both mutexes simultaneously. -/
def bothHeldAt : Bool × Bool → List LEv → Bool
  | _, [] => false
  | st, e :: evs =>
      let st' := applyEv st e
      (st'.1 && st'.2) || bothHeldAt st' evs

/-- State of the alarm thread's list traversal (lines 241-280): `kept`
are the records before `current` that remain linked, `curr` is the
node `current` points to together with its link chain, `expired_alarms`
and `expired_count` the batch of lines 224-225, `displays` the display
registry, `now` the timestamp taken once at line 243. -/
structure TravState where
  kept : List alarm_t
  curr : List alarm_t
  expired_alarms : List alarm_t
  expired_count : Nat
  displays : DisplayState
  now : Int
deriving Repr, DecidableEq

/-- Outcome of the traversal: `fellThrough` is the `while` condition
failing (only possible with an initially empty list, since the in-body
`if (current == NULL) pthread_exit(NULL)` at lines 277-279 fires
first otherwise); `exited` is that `pthread_exit`; `crashed` is a NULL
dereference inside `assign_alarm_to_display_thread`; `fuelOut` means
the modelling fuel ran out before the loop ended. -/
inductive TravOutcome where
  | fellThrough
  | exited
  | crashed
  | fuelOut
deriving Repr, DecidableEq

/-- Result of a traversal or cycle: final state, outcome, and the lock
events the alarm thread performed (beyond its own `alarm_mutex`
acquisition, these come from the `display_mutex` section inside
`assign_alarm_to_display_thread`). -/
structure TravRes where
  state : TravState
  outcome : TravOutcome
  evs : List LEv
deriving Repr, DecidableEq

/-- Prefix additional lock events onto a traversal result. -/
def addEvs (es : List LEv) (r : TravRes) : TravRes :=
  { r with evs := es ++ r.evs }

/-- The alarm thread's list-traversal loop (lines 247-280), run while
holding `alarm_mutex`.  The three branches in priority order: an
expired record (`time <= now`) is unlinked and batched if the batch has
room — but `current` is never advanced (the C body lacks
`current = current->link` in this branch), so the loop immediately
revisits the same record; an unexpired unassigned record is handed to
`assign_alarm_to_display_thread` (which locks `display_mutex` while
`alarm_mutex` is still held) and then marked assigned; an assigned
record is skipped.  After each iteration, `if (current == NULL)
pthread_exit(NULL)` ends the whole thread. -/
def monitor_traverse : Nat → TravState → TravRes
  | fuel, s =>
    match s.curr with
    | [] => ⟨s, .fellThrough, []⟩
    | c :: rest =>
      match fuel with
      | 0 => ⟨s, .fuelOut, []⟩
      | fuel + 1 =>
        if c.time ≤ s.now then
          monitor_traverse fuel
            { s with
              expired_alarms :=
                if s.expired_count < 50 then s.expired_alarms ++ [c] else s.expired_alarms,
              expired_count :=
                if s.expired_count < 50 then s.expired_count + 1 else s.expired_count }
        else if !c.is_assigned then
          match assign_alarm_to_display_thread s.displays c with
          | none => ⟨s, .crashed, [.lockD]⟩
          | some ds' =>
            let s' := { s with
              kept := s.kept ++ [{ c with is_assigned := true }],
              curr := rest, displays := ds' }
            if rest.isEmpty then ⟨s', .exited, [.lockD, .unlockD]⟩
            else addEvs [.lockD, .unlockD] (monitor_traverse fuel s')
        else
          let s' := { s with kept := s.kept ++ [c], curr := rest }
          if rest.isEmpty then ⟨s', .exited, []⟩
          else monitor_traverse fuel s'

/-- One slot of the reassignment pass (lines 284-296): an occupied slot
whose alarm's type no longer matches the group's type is cleared, the
count decremented, and the alarm re-assigned (which locks
`display_mutex`, still under `alarm_mutex`); the reassignment can crash
like any assignment.  Returns the updated registry and group, or `none`
with the trailing events on a crash. -/
def recon_slot (ds : DisplayState) (g : display_t) (j : Nat) :
    Option (DisplayState × display_t) × List LEv :=
  match g.assigned_alarm.getD j none with
  | some a =>
      if a.ty ≠ g.ty then
        let g' := { g with
          assigned_alarm := g.assigned_alarm.set j none,
          assigned_alarm_count := g.assigned_alarm_count - 1 }
        match assign_alarm_to_display_thread (updateGroup ds g') a with
        | none => (none, [.lockD])
        | some ds'' => (some (ds'', g'), [.lockD, .unlockD])
      else (some (ds, g), [])
  | none => (some (ds, g), [])

/-- Both slots of one group in the reassignment pass (inner loop,
lines 284-296). -/
def recon_group (ds : DisplayState) (g : display_t) : Option DisplayState × List LEv :=
  match recon_slot ds g 0 with
  | (none, evs) => (none, evs)
  | (some (ds1, g1), evs0) =>
      match recon_slot ds1 g1 1 with
      | (none, evs1) => (none, evs0 ++ evs1)
      | (some (ds2, _), evs1) => (some ds2, evs0 ++ evs1)

/-- The reassignment pass over the registry (lines 282-297):
`for(i = 0; i < display_thread_count; i++)` where the bound is re-read
each iteration (assignments inside can create groups).  The fuel is the
array capacity, 10, which bounds the count on every state the C code
constructs. -/
def recon_loop : Nat → Nat → DisplayState → Option DisplayState × List LEv
  | 0, _, ds => (some ds, [])
  | fuel + 1, i, ds =>
      if i < ds.display_thread_count then
        match ds.display_threads.getD i none with
        | none => recon_loop fuel (i + 1) ds
        | some g =>
            match recon_group ds g with
            | (none, evs) => (none, evs)
            | (some ds', evs) =>
                let (r, evs') := recon_loop fuel (i + 1) ds'
                (r, evs ++ evs')
      else (some ds, [])

/-- Result of one cycle of the alarm thread. -/
structure CycleResult where
  alarm_list : List alarm_t
  displays : DisplayState
  expired : List alarm_t
  outcome : TravOutcome
  events : List LEv
deriving Repr, DecidableEq

/-- One full cycle of `alarm_thread` (lines 234-321): lock
`alarm_mutex`; traverse the list; if the traversal fell through (empty
list), run the reassignment pass, unlock `alarm_mutex`, and free the
expired batch outside the lock; on `pthread_exit`, on a crash, or on
fuel exhaustion the cycle ends with `alarm_mutex` still held.
`outcome = .fellThrough` is normal completion: the thread then sleeps
one second and begins the next cycle. -/
def monitor_cycle (fuel : Nat) (l : List alarm_t) (ds : DisplayState) (now : Int) :
    CycleResult :=
  let r := monitor_traverse fuel ⟨[], l, [], 0, ds, now⟩
  match r.outcome with
  | .fellThrough =>
      match recon_loop 10 0 r.state.displays with
      | (none, revs) =>
          ⟨r.state.kept ++ r.state.curr, r.state.displays, r.state.expired_alarms,
            .crashed, .lockA :: (r.evs ++ revs)⟩
      | (some ds', revs) =>
          ⟨r.state.kept ++ r.state.curr, ds', r.state.expired_alarms,
            .fellThrough, .lockA :: (r.evs ++ revs ++ [.unlockA])⟩
  | o =>
      ⟨r.state.kept ++ r.state.curr, r.state.displays, r.state.expired_alarms,
        o, .lockA :: r.evs⟩

/-- Number of non-empty slots of a group (the quantity the spec's
`activeCount` invariant compares `assigned_alarm_count` against). -/
def non_nil_slots (g : display_t) : Nat :=
  (g.assigned_alarm.filter (fun o => o.isSome)).length

/-- Whether some group slot in the registry still references an alarm
with the given id. -/
def display_state_mentions (ds : DisplayState) (id : Int) : Bool :=
  ds.display_threads.any (fun o =>
    match o with
    | some g => g.assigned_alarm.any (fun s =>
        match s with
        | some a => a.alarm_ID == id
        | none => false)
    | none => false)

/-- Number of registry array entries holding a group with the given
identity (aliases of one `malloc`ed group). -/
def slot_occurrences (ds : DisplayState) (gid : Nat) : Nat :=
  ds.display_threads.countP (fun o =>
    match o with
    | some h => h.gid == gid
    | none => false)

/-- The alarm list is sorted by ascending `alarm_ID` (adjacent pairs). -/
def sortedByID : List alarm_t → Bool
  | [] => true
  | [_] => true
  | a :: b :: rest => (a.alarm_ID ≤ b.alarm_ID) && sortedByID (b :: rest)

/-- Well-formedness of the display registry array as maintained by every
retirement-free run of the program: the array has its 10 entries, the
occupied ones are exactly the first `display_thread_count`, and every
stored group identity is below the allocator counter. -/
def reg_wf (ds : DisplayState) : Prop :=
  ds.display_threads.length = 10 ∧
  (ds.display_threads.take ds.display_thread_count).all (fun o => o.isSome) = true ∧
  (ds.display_threads.drop ds.display_thread_count).all (fun o => o.isNone) = true ∧
  ds.display_threads.all (fun o =>
    match o with
    | some g => g.gid < ds.next_gid
    | none => true) = true

/-- An already-assigned, not-yet-expired alarm: with it as the whole
list, the traversal reaches the end of the list. -/
def c2_alarm : alarm_t :=
  { seconds := 100, time := 100, message := "m", ty := "aa", alarm_ID := 1,
    is_assigned := true }

/-- An unassigned, not-yet-expired alarm (drives one assignment). -/
def c1_alarm : alarm_t :=
  { seconds := 100, time := 100, message := "m", ty := "aa", alarm_ID := 1,
    is_assigned := false }

/-- An alarm whose expiry is already past at time 0. -/
def expired_alarm : alarm_t :=
  { seconds := 5, time := -5, message := "m", ty := "aa", alarm_ID := 1,
    is_assigned := true }

/-- Traversal state at the start of a Monitor cycle whose alarm list
holds a single already-expired record. -/
def c6_state : TravState :=
  ⟨[], [expired_alarm], [], 0, emptyDisplayState, 0⟩

/-- A group holding one expired alarm in slot 0 (count 1). -/
def c3_group : display_t :=
  { gid := 0, ty := "aa", assigned_alarm_count := 1,
    assigned_alarm := [some expired_alarm, none] }

/-- A registry at its capacity of 10 groups, all of a type different
from `c5_alarm`'s, so that assigning `c5_alarm` requires creating an
eleventh group. -/
def c5_full_registry : DisplayState :=
  { display_threads := (List.range 10).map (fun i =>
      some { gid := i, ty := "aa", assigned_alarm_count := 0,
             assigned_alarm := [none, none] })
    display_thread_count := 10
    next_gid := 10 }

/-- An alarm of a type served by no existing group of `c5_full_registry`. -/
def c5_alarm : alarm_t :=
  { seconds := 100, time := 100, message := "m", ty := "bb", alarm_ID := 7,
    is_assigned := false }

/-- Alarms 1 and 2 of category "aa", started at time 0 with interval
100, for the cancellation scenario. -/
def c4_a1 : alarm_t := start_alarm 0 1 "aa" 100 "x"

/-- Second alarm of the cancellation scenario. -/
def c4_a2 : alarm_t := start_alarm 0 2 "aa" 100 "y"

/-- Alarm list after `Start_Alarm(1)` and `Start_Alarm(2)`. -/
def c4_list : List alarm_t := insert_alarm c4_a2 (insert_alarm c4_a1 [])

/-- Display registry after the Monitor assigns both alarms: one group of
category "aa" holding ids 1 and 2. -/
def c4_displays : DisplayState :=
  ((assign_alarm_to_display_thread emptyDisplayState c4_a1).bind
    (fun ds => assign_alarm_to_display_thread ds c4_a2)).getD emptyDisplayState

/-- State after `Cancel_Alarm(1)`: the cancel loop clears slot 0 and
decrements the count to 1, so slot 1 (still holding id 2) now sits at
an index the shrunken bound covers only through the NULL slot 0. -/
def c4_after1 : Option (List alarm_t × DisplayState) :=
  cancel_alarm_command c4_list c4_displays 1

/-- Result of the subsequent `Cancel_Alarm(2)`: its display scan probes
the NULL slot 0 left by the first cancellation. -/
def c4_after2 : Option (List alarm_t × DisplayState) :=
  match c4_after1 with
  | some (l, ds) => cancel_alarm_command l ds 2
  | none => none

/-- A live alarm of category "bb" for the second group of the
retirement scenario. -/
def c7_alarm : alarm_t :=
  { seconds := 100, time := 100, message := "n", ty := "bb", alarm_ID := 2,
    is_assigned := true }

/-- A second live group, so that the retirement of the first happens in
a registry with two groups. -/
def c7_g1 : display_t :=
  { gid := 1, ty := "bb", assigned_alarm_count := 1,
    assigned_alarm := [some c7_alarm, none] }

/-- Registry with groups `c3_group` (about to find both slots dead) and
`c7_g1`. -/
def c7_registry : DisplayState :=
  { display_threads := [some c3_group, some c7_g1] ++ List.replicate 8 none
    display_thread_count := 2
    next_gid := 2 }

/-- Registry after: create a group, let its worker retire it (its slots
are empty), — the count is back to 0 but the array entry still holds
the freed group. -/
def c10_after_retire : DisplayState :=
  match create_display_thread emptyDisplayState "aa" with
  | some (_, ds) => display_thread_step ds 0 0
  | none => emptyDisplayState

/-- The group and registry produced by the next creation after the
retirement: the fill loop finds no NULL entry below the count. -/
def c10_second_create : display_t × DisplayState :=
  match create_display_thread c10_after_retire "bb" with
  | some p => p
  | none => ({ gid := 99, ty := "", assigned_alarm_count := 0, assigned_alarm := [] },
      emptyDisplayState)

/-- A record with id 2, inserted into `c8_list` for the insertion
witness. -/
def c8_alarm : alarm_t := start_alarm 0 2 "bb" 30 "two"

/-- A sorted two-record list with ids 1 and 3. -/
def c8_list : List alarm_t :=
  [start_alarm 0 1 "aa" 10 "one", start_alarm 0 3 "cc" 50 "three"]

/-- Records with ids 1 and 2 for the change-command witness. -/
def c9_r1 : alarm_t := start_alarm 0 1 "aa" 10 "one"

/-- Second record of the change-command witness list. -/
def c9_r2 : alarm_t := start_alarm 0 2 "bb" 30 "two"

/-- The group produced by the first creation in the empty registry. -/
def c10_w_group : display_t :=
  { gid := 0, ty := "aa", assigned_alarm_count := 0, assigned_alarm := [none, none] }

/-- The registry produced by the first creation in the empty registry. -/
def c10_w_state : DisplayState :=
  { display_threads := some c10_w_group :: List.replicate 9 none
    display_thread_count := 1
    next_gid := 1 }

/-- C1 (counterexample): the claim that no thread ever holds the
AlarmRegistry lock and the DisplayRegistry lock simultaneously, and
that every Monitor cycle releases the AlarmRegistry lock before any
call acquiring the DisplayRegistry lock, is false: in the Monitor
cycle over a list holding one unassigned, unexpired alarm, the call to
`assign_alarm_to_display_thread` (line 267) locks `display_mutex`
while `alarm_mutex` (taken at line 235) is still held, so both locks
are held at once. -/
theorem C1_both_locks_held :
    bothHeldAt (false, false) (monitor_cycle 5 [c1_alarm] emptyDisplayState 0).events = true := by
  decide

/-- C2 (code bug): contrary to the claim (and to the code's own
comment, lines 230-233), the alarm thread does not loop forever: on
the alarm-list state holding one assigned, unexpired alarm, the
traversal reaches the end of the list and the in-body check
`if (current == NULL) pthread_exit(NULL);` (lines 277-279) terminates
the Monitor thread instead of completing the cycle and sleeping. -/
theorem C2_monitor_thread_exits :
    (monitor_cycle 5 [c2_alarm] emptyDisplayState 0).outcome = TravOutcome.exited := by
  decide

/-- C3 (code bug): the worker's expiry-clearing step violates the
`activeCount` invariant: on a group whose single alarm is expired, the
scan clears the slot (line 76) without decrementing
`assigned_alarm_count`, leaving the count at 1 while no slot is
occupied (cancellation, by contrast, does decrement at line 205). -/
theorem C3_worker_clear_keeps_count :
    (display_thread_cycle c3_group 0).1.assigned_alarm_count = 1 ∧
    non_nil_slots (display_thread_cycle c3_group 0).1 = 0 := by
  decide

/-- C4 (code bug): after `Start_Alarm(1)`, `Start_Alarm(2)` (same
category, both assigned to one group) and `Cancel_Alarm(1)`, the
cancel loop's shrinking bound (lines 199-209) leaves slot 0 NULL with
`assigned_alarm_count = 1` while slot 1 still references id 2; the
subsequent `Cancel_Alarm(2)` removes the record from the alarm list
and frees it, then its display scan dereferences the NULL slot 0
unguarded (`assigned_alarm[k]->alarm_ID`, line 202) and crashes the
process — instead of clearing the slot that still references id 2, as
the claim requires. -/
theorem C4_cancel_crashes_on_vacated_slot :
    (c4_after1.map (fun p => p.1) = some [c4_a2]) ∧
    (c4_after1.map (fun p => display_state_mentions p.2 2) = some true) ∧
    c4_after2 = none := by
  decide

/-- C5 (code bug): when the DisplayRegistry already holds 10 groups
and an assignment requires creating a new one,
`create_display_thread` returns NULL (line 104) and the caller
immediately dereferences it in the creation log (lines 166/169),
before the `target_thread != NULL` guard of line 173 — a crash
(modelled as `none`), not the claimed logged-error-and-retry. -/
theorem C5_assign_crashes_at_capacity :
    assign_alarm_to_display_thread c5_full_registry c5_alarm = none := by
  decide

/-- C6 (code bug): the Monitor's drain pass is not a terminating
single traversal: the expired branch (lines 250-263) unlinks and
batches the record but never advances `current`, so whenever the
record under the cursor is already expired the loop revisits it
forever (for every amount of fuel the model reports fuel
exhaustion, never an exit of the loop). -/
theorem C6_drain_stuck_on_expired (s : TravState) (c : alarm_t) (rest : List alarm_t)
    (hcurr : s.curr = c :: rest) (hexp : c.time ≤ s.now) :
    ∀ fuel, (monitor_traverse fuel s).outcome = TravOutcome.fuelOut := by
  intro fuel
  induction fuel generalizing s with
  | zero => simp [monitor_traverse, hcurr]
  | succ n ih =>
      rw [monitor_traverse, hcurr]
      simp only [hexp, if_pos]
      exact ih _ rfl hexp

/-- Witness for `C6_drain_stuck_on_expired`: the stuck traversal at a
concrete state (one already-expired alarm, time 0) and concrete fuel. -/
theorem C6_drain_stuck_on_expired_witness :
    (monitor_traverse 100 c6_state).outcome = TravOutcome.fuelOut :=
  C6_drain_stuck_on_expired c6_state expired_alarm [] rfl (by decide) 100

/-- C7 (code bug): when a group's worker finds both slots dead
(`active_alarm == 0`), it frees the group and decrements
`display_thread_count` (lines 84-92) but never clears
`display_threads[i]`: after the retirement of the group at index 0 of
a two-group registry, the array entry still holds the freed group —
contradicting the claim that no registry slot points to it — while the
decremented count now excludes the still-live group at index 1 from
every count-bounded scan. -/
theorem C7_retire_leaves_registry_entry :
    ((display_thread_step c7_registry 0 0).display_threads.getD 0 none).map
        (fun g => g.gid) = some 0 ∧
    (display_thread_step c7_registry 0 0).display_thread_count = 1 := by
  decide

/-- C10 (counterexample): after a creation, a retirement (which
decrements `display_thread_count` without clearing the array entry)
and a second creation, the fill loop of `create_display_thread`
(lines 127-131) finds no NULL entry below the count, so the newly
created group — identity 1 — is stored in zero array slots, not
exactly one, and `display_thread_count` (now 1) counts a group that is
only the freed stale entry. -/
theorem C10_created_group_in_zero_slots :
    c10_second_create.1.gid = 1 ∧
    slot_occurrences c10_second_create.2 1 = 0 ∧
    c10_second_create.2.display_thread_count = 1 := by
  decide

/-- Helper for C8: the insertion loop preserves ascending-id order. -/
theorem insert_alarm_sorted_aux (a : alarm_t) :
    ∀ l : List alarm_t, sortedByID l = true → sortedByID (insert_alarm a l) = true := by
  intro l
  induction l with
  | nil => intro _; rfl
  | cons b t ih =>
      intro h
      rw [insert_alarm]
      by_cases hb : b.alarm_ID ≥ a.alarm_ID
      · rw [if_pos hb]
        simp only [sortedByID, Bool.and_eq_true, decide_eq_true_eq]
        exact ⟨hb, h⟩
      · rw [if_neg hb]
        push_neg at hb
        cases t with
        | nil =>
            simp only [insert_alarm, sortedByID, Bool.and_eq_true, decide_eq_true_eq]
            exact ⟨le_of_lt hb, trivial⟩
        | cons c t' =>
            simp only [sortedByID, Bool.and_eq_true, decide_eq_true_eq] at h
            obtain ⟨hbc, h2⟩ := h
            rw [insert_alarm]
            by_cases hc : c.alarm_ID ≥ a.alarm_ID
            · rw [if_pos hc]
              simp only [sortedByID, Bool.and_eq_true, decide_eq_true_eq]
              exact ⟨le_of_lt hb, hc, h2⟩
            · rw [if_neg hc]
              have h3 : sortedByID (insert_alarm a (c :: t')) = true := ih h2
              rw [insert_alarm, if_neg hc] at h3
              simp only [sortedByID, Bool.and_eq_true, decide_eq_true_eq]
              exact ⟨hbc, h3⟩

/-- Helper for C8: the insertion point is in front of the first record
whose id is not below the new id. -/
theorem insert_alarm_position (a : alarm_t) :
    ∀ l : List alarm_t,
      insert_alarm a l =
        l.takeWhile (fun x => x.alarm_ID < a.alarm_ID) ++
          a :: l.dropWhile (fun x => x.alarm_ID < a.alarm_ID) := by
  intro l
  induction l with
  | nil => rfl
  | cons b t ih =>
      rw [insert_alarm]
      by_cases hb : b.alarm_ID ≥ a.alarm_ID
      · rw [if_pos hb]
        have hpred : (fun x : alarm_t => decide (x.alarm_ID < a.alarm_ID)) b = false := by
          simp only [decide_eq_false_iff_not]
          omega
        simp [List.takeWhile, List.dropWhile, hpred]
      · rw [if_neg hb]
        push_neg at hb
        have hpred : (fun x : alarm_t => decide (x.alarm_ID < a.alarm_ID)) b = true := by
          simp only [decide_eq_true_eq]
          omega
        simp only [List.takeWhile, List.dropWhile, hpred, List.cons_append]
        exact congrArg (b :: ·) ih

/-- C8 (confirmed): for every alarm list, the `Start_Alarm` insertion
loop (lines 386-407) keeps the list sorted by ascending `alarm_ID`,
and it places the new record exactly in front of the first record
whose id is `>=` the new id (at the end when there is none). -/
theorem C8_insert_sorted_and_position (a : alarm_t) (l : List alarm_t) :
    (sortedByID l = true → sortedByID (insert_alarm a l) = true) ∧
    insert_alarm a l =
      l.takeWhile (fun x => x.alarm_ID < a.alarm_ID) ++
        a :: l.dropWhile (fun x => x.alarm_ID < a.alarm_ID) :=
  ⟨insert_alarm_sorted_aux a l, insert_alarm_position a l⟩

/-- Witness for `C8_insert_sorted_and_position`: inserting id 2 into
the sorted list with ids 1 and 3. -/
theorem C8_insert_sorted_and_position_witness :
    sortedByID (insert_alarm c8_alarm c8_list) = true ∧
    insert_alarm c8_alarm c8_list =
      c8_list.takeWhile (fun x => x.alarm_ID < c8_alarm.alarm_ID) ++
        c8_alarm :: c8_list.dropWhile (fun x => x.alarm_ID < c8_alarm.alarm_ID) :=
  ⟨(C8_insert_sorted_and_position c8_alarm c8_list).1 (by decide),
   (C8_insert_sorted_and_position c8_alarm c8_list).2⟩

/-- C9 (confirmed): for every registry state, the `Change_Alarm` scan
(lines 415-439) touches exactly the first record whose `alarm_ID`
matches, overwriting only its `seconds` and `message` fields (so
`time`, `ty`, `alarm_ID`, `is_assigned` and every other record are
unchanged: every record before the match and after it is returned as
it was); when no record matches, it reports not-found and the list is
returned unchanged. -/
theorem C9_change_alarm_frame (id dur : Int) (msg : String) (l : List alarm_t) :
    (l.dropWhile (fun r => r.alarm_ID != id) = [] →
      change_alarm id dur msg l = (l, false)) ∧
    (∀ r rest, l.dropWhile (fun r => r.alarm_ID != id) = r :: rest →
      change_alarm id dur msg l =
        (l.takeWhile (fun r => r.alarm_ID != id) ++
          { r with seconds := dur, message := strncpy_trunc msg 127 } :: rest, true)) := by
  induction l with
  | nil =>
      refine ⟨fun _ => rfl, fun r rest h => ?_⟩
      simp [List.dropWhile] at h
  | cons a t ih =>
      by_cases ha : a.alarm_ID = id
      · have hpred : (a.alarm_ID != id) = false := by simp [ha]
        constructor
        · intro h
          rw [List.dropWhile_cons] at h
          simp [hpred] at h
        · intro r rest h
          rw [List.dropWhile_cons] at h
          simp only [hpred, Bool.false_eq_true, if_false, List.cons.injEq] at h
          obtain ⟨hr, hrest⟩ := h
          subst hr
          subst hrest
          rw [change_alarm, if_pos (by simp [ha]), List.takeWhile_cons]
          simp [hpred, ha]
      · have hpred : (a.alarm_ID != id) = true := by simp [ha]
        constructor
        · intro h
          rw [List.dropWhile_cons] at h
          simp only [hpred, if_true] at h
          have h1 := ih.1 h
          rw [change_alarm, if_neg (by simp [ha]), h1]
        · intro r rest h
          rw [List.dropWhile_cons] at h
          simp only [hpred, if_true] at h
          have h2 := ih.2 r rest h
          rw [change_alarm, if_neg (by simp [ha]), h2, List.takeWhile_cons]
          simp [hpred]

/-- Witness for `C9_change_alarm_frame`: changing id 2 in the
two-record list updates only the second record's interval and message. -/
theorem C9_change_alarm_frame_witness :
    change_alarm 2 99 "new" [c9_r1, c9_r2] =
      ([c9_r1, c9_r2].takeWhile (fun r => r.alarm_ID != 2) ++
        { c9_r2 with seconds := 99, message := strncpy_trunc "new" 127 } :: [], true) :=
  (C9_change_alarm_frame 2 99 "new" [c9_r1, c9_r2]).2 c9_r2 [] (by decide)

/-- Helper: the fill loop of `create_display_thread`, run past a fully
occupied prefix with the budget reaching exactly one entry further,
writes the group into that next (empty) entry and nothing else. -/
theorem fill_first_nulls_append (g : display_t) :
    ∀ l1 l2 : List (Option display_t),
      l1.all (fun o => o.isSome) = true →
      fill_first_nulls g (l1 ++ none :: l2) (l1.length + 1) = l1 ++ some g :: l2 := by
  intro l1
  induction l1 with
  | nil => intro l2 _; simp [fill_first_nulls]
  | cons o t ih =>
      intro l2 hall
      simp only [List.all_cons, Bool.and_eq_true] at hall
      obtain ⟨ho, ht⟩ := hall
      cases o with
      | none => simp at ho
      | some h =>
          simp only [List.cons_append, List.length_cons]
          rw [fill_first_nulls]
          rw [ih l2 ht]

/-- Helper: indexing just past an occupied prefix. -/
theorem getD_append_cons {α : Type} (x d : α) :
    ∀ l1 l2 : List α, (l1 ++ x :: l2).getD l1.length d = x := by
  intro l1
  induction l1 with
  | nil => intro l2; rfl
  | cons a t ih => intro l2; simpa [List.getD] using ih l2

/-- Helper: taking one past an occupied prefix. -/
theorem take_append_cons {α : Type} (x : α) :
    ∀ l1 l2 : List α, (l1 ++ x :: l2).take (l1.length + 1) = l1 ++ [x] := by
  intro l1
  induction l1 with
  | nil => intro l2; rfl
  | cons a t ih => intro l2; simp [ih l2]

/-- Helper: dropping one past an occupied prefix. -/
theorem drop_append_cons {α : Type} (x : α) :
    ∀ l1 l2 : List α, (l1 ++ x :: l2).drop (l1.length + 1) = l2 := by
  intro l1
  induction l1 with
  | nil => intro l2; rfl
  | cons a t ih => intro l2; simp [ih l2]

/-- C10 (amended, theorem): in a registry whose occupied entries are
exactly the first `display_thread_count` (true of every run without
retirements) with group identities below the allocation counter, a
successful `create_display_thread` stores the new group in exactly one
array slot — the entry at the old count — and the occupied-prefix
correspondence is preserved with the count incremented.  (After a
retirement, which decrements the count without clearing the entry,
this hypothesis fails and the counterexample shows a creation stored
in zero slots.) -/
theorem C10_create_occupies_one_slot (ds : DisplayState) (ty : String)
    (g : display_t) (ds' : DisplayState)
    (hwf : reg_wf ds) (hcap : ds.display_thread_count < 10)
    (hcr : create_display_thread ds ty = some (g, ds')) :
    g.gid = ds.next_gid ∧
    ds'.display_thread_count = ds.display_thread_count + 1 ∧
    ds'.display_threads.getD ds.display_thread_count none = some g ∧
    slot_occurrences ds' g.gid = 1 ∧
    reg_wf ds' := by
  obtain ⟨hlen, htake, hdrop, hgid⟩ := hwf
  rw [create_display_thread, if_neg (by omega)] at hcr
  simp only [Option.some.injEq, Prod.mk.injEq] at hcr
  obtain ⟨hg, hds'⟩ := hcr
  subst hg
  subst hds'
  set cnt := ds.display_thread_count with hcnt
  set gnew : display_t :=
    { gid := ds.next_gid, ty := ty, assigned_alarm_count := 0,
      assigned_alarm := [none, none] } with hgnew
  have hl1len : (ds.display_threads.take cnt).length = cnt := by
    rw [List.length_take]; omega
  have hsplit : ds.display_threads.take cnt ++ ds.display_threads.drop cnt =
      ds.display_threads := List.take_append_drop cnt ds.display_threads
  have hdlen : (ds.display_threads.drop cnt).length = 10 - cnt := by
    rw [List.length_drop, hlen]
  obtain ⟨o, l2, hrest⟩ : ∃ o l2, ds.display_threads.drop cnt = o :: l2 := by
    cases hd : ds.display_threads.drop cnt with
    | nil => rw [hd] at hdlen; simp at hdlen; omega
    | cons o l2 => exact ⟨o, l2, rfl⟩
  have honone : o = none := by
    rw [hrest] at hdrop
    simp only [List.all_cons, Bool.and_eq_true] at hdrop
    cases o with
    | none => rfl
    | some h => simp at hdrop
  subst honone
  have harr : ds.display_threads = ds.display_threads.take cnt ++ none :: l2 := by
    conv_lhs => rw [← hsplit]
    rw [hrest]
  have hl2none : l2.all (fun o => o.isNone) = true := by
    rw [hrest] at hdrop
    simp only [List.all_cons, Bool.and_eq_true] at hdrop
    exact hdrop.2
  have hfill : fill_first_nulls gnew ds.display_threads (cnt + 1) =
      ds.display_threads.take cnt ++ some gnew :: l2 := by
    have h1 := fill_first_nulls_append gnew (ds.display_threads.take cnt) l2 htake
    rw [hl1len] at h1
    conv_lhs => rw [harr]
    exact h1
  refine ⟨rfl, rfl, ?_, ?_, ?_⟩
  · have h3 := getD_append_cons (some gnew) none (ds.display_threads.take cnt) l2
    rw [hl1len] at h3
    simp only [hfill]
    exact h3
  · simp only [slot_occurrences, hfill, List.countP_append]
    have hz1 : (ds.display_threads.take cnt).countP (fun o =>
        match o with
        | some h => h.gid == gnew.gid
        | none => false) = 0 := by
      rw [List.countP_eq_zero]
      intro o ho
      have homem : o ∈ ds.display_threads := List.take_subset cnt ds.display_threads ho
      have hb := List.all_eq_true.mp hgid o homem
      cases o with
      | none => simp
      | some h =>
          simp only [decide_eq_true_eq] at hb
          simp only [beq_iff_eq, hgnew]
          omega
    have hz2 : l2.countP (fun o =>
        match o with
        | some h => h.gid == gnew.gid
        | none => false) = 0 := by
      rw [List.countP_eq_zero]
      intro o ho
      have hb := List.all_eq_true.mp hl2none o ho
      cases o with
      | none => simp
      | some h => simp at hb
    rw [hz1, List.countP_cons_of_pos _ _ (by simp), hz2]
  · refine ⟨?_, ?_, ?_, ?_⟩
    · have h10 : (ds.display_threads.take cnt ++ (none : Option display_t) :: l2).length = 10 := by
        rw [← harr]; exact hlen
      simp only [List.length_append, List.length_cons] at h10
      simp only [hfill, List.length_append, List.length_cons]
      omega
    · have h4 := take_append_cons (some gnew) (ds.display_threads.take cnt) l2
      rw [hl1len] at h4
      simp only [hfill, h4, List.all_append, Bool.and_eq_true]
      refine ⟨htake, by simp⟩
    · have h5 := drop_append_cons (some gnew) (ds.display_threads.take cnt) l2
      rw [hl1len] at h5
      simp only [hfill, h5]
      exact hl2none
    · simp only [hfill, List.all_append, List.all_cons, Bool.and_eq_true]
      refine ⟨?_, by simp [hgnew], ?_⟩
      · rw [List.all_eq_true]
        intro o ho
        have homem : o ∈ ds.display_threads := List.take_subset cnt ds.display_threads ho
        have hb := List.all_eq_true.mp hgid o homem
        cases o with
        | none => simp
        | some h =>
            simp only [decide_eq_true_eq] at hb ⊢
            omega
      · rw [List.all_eq_true]
        intro o ho
        have hb := List.all_eq_true.mp hl2none o ho
        cases o with
        | none => simp
        | some h => simp at hb

/-- Witness for `C10_create_occupies_one_slot`: the first creation in
the empty registry lands in exactly one slot, entry 0. -/
theorem C10_create_occupies_one_slot_witness :
    c10_w_group.gid = emptyDisplayState.next_gid ∧
    c10_w_state.display_thread_count = emptyDisplayState.display_thread_count + 1 ∧
    c10_w_state.display_threads.getD emptyDisplayState.display_thread_count none =
      some c10_w_group ∧
    slot_occurrences c10_w_state c10_w_group.gid = 1 ∧
    reg_wf c10_w_state :=
  C10_create_occupies_one_slot emptyDisplayState "aa" c10_w_group c10_w_state
    (by refine ⟨?_, ?_, ?_, ?_⟩ <;> decide) (by decide) (by decide)

/-- Helper for C1: `nestOK` splits over concatenation of event lists. -/
theorem nestOK_append (xs : List LEv) :
    ∀ (ys : List LEv) (st : Bool × Bool),
      nestOK st (xs ++ ys) = (nestOK st xs && nestOK (xs.foldl applyEv st) ys) := by
  induction xs with
  | nil => intro ys st; rfl
  | cons e xs ih =>
      intro ys st
      simp only [List.cons_append, nestOK, List.foldl_cons, List.append_eq]
      rw [ih, Bool.and_assoc]

/-- Helper for C1: once the alarm lock is held, any run of
display-lock events keeps the nesting discipline intact, and the alarm
lock stays held. -/
theorem nestOK_of_noA (evs : List LEv) :
    ∀ d : Bool, (∀ e ∈ evs, e = LEv.lockD ∨ e = LEv.unlockD) →
      nestOK (true, d) evs = true := by
  induction evs with
  | nil => intro d _; rfl
  | cons e t ih =>
      intro d h
      rcases h e (List.mem_cons_self e t) with he | he <;>
        · subst he
          simp only [nestOK, applyEv]
          exact ih _ (fun x hx => h x (List.mem_cons_of_mem _ hx))

/-- Helper for C1: a run of display-lock events does not change the
alarm-lock component of the held-locks state. -/
theorem foldl_noA_fst (evs : List LEv) :
    ∀ st : Bool × Bool, (∀ e ∈ evs, e = LEv.lockD ∨ e = LEv.unlockD) →
      (evs.foldl applyEv st).1 = st.1 := by
  induction evs with
  | nil => intro st _; rfl
  | cons e t ih =>
      intro st h
      rcases h e (List.mem_cons_self e t) with he | he <;>
        · subst he
          simp only [List.foldl_cons, applyEv]
          rw [ih _ (fun x hx => h x (List.mem_cons_of_mem _ hx))]

/-- Helper for C1: every lock event the traversal performs is a
display-lock event (the alarm lock is held throughout and never
touched inside the loop). -/
theorem trav_noA : ∀ (fuel : Nat) (s : TravState),
    ∀ e ∈ (monitor_traverse fuel s).evs, e = LEv.lockD ∨ e = LEv.unlockD := by
  intro fuel
  induction fuel with
  | zero =>
      intro s e he
      rcases hc : s.curr with _ | ⟨c, rest⟩ <;>
        · rw [monitor_traverse, hc] at he
          simp at he
  | succ n ih =>
      intro s e he
      rcases hc : s.curr with _ | ⟨c, rest⟩
      · rw [monitor_traverse, hc] at he
        simp at he
      · rw [monitor_traverse, hc] at he
        by_cases hexp : c.time ≤ s.now
        · simp only [hexp, if_true, if_pos] at he
          exact ih _ e he
        · simp only [hexp, if_false, if_neg, not_false_iff] at he
          by_cases hass : (!c.is_assigned) = true
          · rw [if_pos hass] at he
            cases hassign : assign_alarm_to_display_thread s.displays c with
            | none =>
                rw [hassign] at he
                simp at he
                left; exact he
            | some ds' =>
                rw [hassign] at he
                cases hre : rest.isEmpty with
                | true =>
                    rw [hre] at he
                    simp at he
                    rcases he with he | he
                    · left; exact he
                    · right; exact he
                | false =>
                    rw [hre] at he
                    simp only [if_false, Bool.false_eq_true, addEvs, List.cons_append,
                      List.nil_append, List.mem_cons] at he
                    rcases he with he | he | he
                    · left; exact he
                    · right; exact he
                    · exact ih _ e he
          · rw [if_neg hass] at he
            cases hre : rest.isEmpty with
            | true =>
                rw [hre] at he
                simp at he
            | false =>
                rw [hre] at he
                simp only [if_false, Bool.false_eq_true] at he
                exact ih _ e he

/-- Helper for C1: unless the traversal crashed mid-assignment, its
display-lock events are balanced: starting with the display lock free,
they end with it free. -/
theorem trav_balanced : ∀ (fuel : Nat) (s : TravState) (a : Bool),
    (monitor_traverse fuel s).outcome ≠ TravOutcome.crashed →
    (monitor_traverse fuel s).evs.foldl applyEv (a, false) = (a, false) := by
  intro fuel
  induction fuel with
  | zero =>
      intro s a h
      rcases hc : s.curr with _ | ⟨c, rest⟩ <;>
        · rw [monitor_traverse, hc]
          rfl
  | succ n ih =>
      intro s a h
      rcases hc : s.curr with _ | ⟨c, rest⟩
      · rw [monitor_traverse, hc]; rfl
      · rw [monitor_traverse, hc] at h ⊢
        by_cases hexp : c.time ≤ s.now
        · simp only [hexp, if_true, if_pos] at h ⊢
          exact ih _ a h
        · simp only [hexp, if_false, if_neg, not_false_iff] at h ⊢
          by_cases hass : (!c.is_assigned) = true
          · rw [if_pos hass] at h ⊢
            cases hassign : assign_alarm_to_display_thread s.displays c with
            | none =>
                rw [hassign] at h
                exact absurd rfl h
            | some ds' =>
                rw [hassign] at h
                dsimp only at h ⊢
                by_cases hre : rest.isEmpty = true
                · rw [if_pos hre]
                  rfl
                · rw [if_neg hre] at h ⊢
                  simp only [addEvs, List.cons_append, List.nil_append,
                    List.foldl_cons, applyEv] at h ⊢
                  exact ih _ a h
          · rw [if_neg hass] at h ⊢
            by_cases hre : rest.isEmpty = true
            · rw [if_pos hre]
              rfl
            · rw [if_neg hre] at h ⊢
              exact ih _ a h

/-- Helper for C1: one reassignment-slot step emits no events, one
balanced display-lock pair, or — only when it crashes — a lone display
lock acquisition. -/
theorem recon_slot_cases (ds : DisplayState) (g : display_t) (j : Nat) :
    (recon_slot ds g j).2 = [] ∨ (recon_slot ds g j).2 = [LEv.lockD, LEv.unlockD] ∨
      ((recon_slot ds g j).1 = none ∧ (recon_slot ds g j).2 = [LEv.lockD]) := by
  unfold recon_slot
  split
  · split
    · dsimp only
      split
      · right; right; exact ⟨rfl, rfl⟩
      · right; left; rfl
    · left; rfl
  · left; rfl

/-- Helper for C1: every event of a reassignment-slot step is a
display-lock event. -/
theorem recon_slot_noA (ds : DisplayState) (g : display_t) (j : Nat) :
    ∀ e ∈ (recon_slot ds g j).2, e = LEv.lockD ∨ e = LEv.unlockD := by
  intro e he
  rcases recon_slot_cases ds g j with h | h | ⟨_, h⟩
  · rw [h] at he
    simp at he
  · rw [h] at he
    simp at he
    rcases he with he | he
    · left; exact he
    · right; exact he
  · rw [h] at he
    simp at he
    left; exact he

/-- Helper for C1: an empty or balanced display-lock block leaves the
held-locks state unchanged when the display lock starts free. -/
theorem block_foldl (a : Bool) (evs : List LEv)
    (h : evs = [] ∨ evs = [LEv.lockD, LEv.unlockD]) :
    evs.foldl applyEv (a, false) = (a, false) := by
  rcases h with h | h <;> subst h <;> rfl

/-- Helper for C1: every event of a whole-group reassignment step is a
display-lock event. -/
theorem recon_group_noA (ds : DisplayState) (g : display_t) :
    ∀ e ∈ (recon_group ds g).2, e = LEv.lockD ∨ e = LEv.unlockD := by
  intro e he
  rw [recon_group] at he
  obtain ⟨r0, evs0, h0⟩ : ∃ r0 evs0, recon_slot ds g 0 = (r0, evs0) := ⟨_, _, rfl⟩
  rw [h0] at he
  have hm0 := recon_slot_noA ds g 0 e
  rw [h0] at hm0
  cases r0 with
  | none =>
      dsimp only at he
      exact hm0 he
  | some p0 =>
      rcases p0 with ⟨ds1, g1⟩
      dsimp only at he
      obtain ⟨r1, evs1, h1⟩ : ∃ r1 evs1, recon_slot ds1 g1 1 = (r1, evs1) := ⟨_, _, rfl⟩
      rw [h1] at he
      have hm1 := recon_slot_noA ds1 g1 1 e
      rw [h1] at hm1
      cases r1 with
      | none =>
          dsimp only at he
          rcases List.mem_append.mp he with he | he
          · exact hm0 he
          · exact hm1 he
      | some ds2 =>
          dsimp only at he
          rcases List.mem_append.mp he with he | he
          · exact hm0 he
          · exact hm1 he

/-- Helper for C1: a whole-group reassignment step that does not crash
has balanced display-lock events. -/
theorem recon_group_balanced (ds : DisplayState) (g : display_t) (a : Bool)
    (h : (recon_group ds g).1 ≠ none) :
    (recon_group ds g).2.foldl applyEv (a, false) = (a, false) := by
  rw [recon_group] at h ⊢
  obtain ⟨r0, evs0, h0⟩ : ∃ r0 evs0, recon_slot ds g 0 = (r0, evs0) := ⟨_, _, rfl⟩
  rw [h0] at h ⊢
  have hc0 := recon_slot_cases ds g 0
  rw [h0] at hc0
  cases r0 with
  | none =>
      dsimp only at h
      exact absurd rfl h
  | some p0 =>
      rcases p0 with ⟨ds1, g1⟩
      dsimp only at h ⊢
      have hb0 : evs0 = [] ∨ evs0 = [LEv.lockD, LEv.unlockD] := by
        rcases hc0 with hx | hx | ⟨hx, _⟩
        · left; exact hx
        · right; exact hx
        · simp at hx
      obtain ⟨r1, evs1, h1⟩ : ∃ r1 evs1, recon_slot ds1 g1 1 = (r1, evs1) := ⟨_, _, rfl⟩
      rw [h1] at h ⊢
      have hc1 := recon_slot_cases ds1 g1 1
      rw [h1] at hc1
      cases r1 with
      | none =>
          dsimp only at h
          exact absurd rfl h
      | some ds2 =>
          dsimp only
          have hb1 : evs1 = [] ∨ evs1 = [LEv.lockD, LEv.unlockD] := by
            rcases hc1 with hx | hx | ⟨hx, _⟩
            · left; exact hx
            · right; exact hx
            · simp at hx
          rw [List.foldl_append, block_foldl a evs0 hb0, block_foldl a evs1 hb1]

/-- Helper for C1: every event of the whole reassignment pass is a
display-lock event. -/
theorem recon_loop_noA : ∀ (fuel i : Nat) (ds : DisplayState),
    ∀ e ∈ (recon_loop fuel i ds).2, e = LEv.lockD ∨ e = LEv.unlockD := by
  intro fuel
  induction fuel with
  | zero => intro i ds e he; simp [recon_loop] at he
  | succ n ih =>
      intro i ds e he
      rw [recon_loop] at he
      by_cases hi : i < ds.display_thread_count
      · rw [if_pos hi] at he
        obtain ⟨og, hg⟩ : ∃ og, ds.display_threads.getD i none = og := ⟨_, rfl⟩
        rw [hg] at he
        cases og with
        | none => exact ih _ _ e he
        | some g =>
            dsimp only at he
            obtain ⟨rg, evsg, hrg⟩ : ∃ rg evsg, recon_group ds g = (rg, evsg) :=
              ⟨_, _, rfl⟩
            rw [hrg] at he
            have hmg := recon_group_noA ds g e
            rw [hrg] at hmg
            cases rg with
            | none =>
                dsimp only at he
                exact hmg he
            | some ds' =>
                dsimp only at he
                obtain ⟨rt, evst, hrt⟩ : ∃ rt evst, recon_loop n (i + 1) ds' = (rt, evst) :=
                  ⟨_, _, rfl⟩
                rw [hrt] at he
                dsimp only at he
                have hml := ih (i + 1) ds' e
                rw [hrt] at hml
                rcases List.mem_append.mp he with he | he
                · exact hmg he
                · exact hml he
      · rw [if_neg hi] at he
        simp at he

/-- Helper for C1: a reassignment pass that does not crash has
balanced display-lock events. -/
theorem recon_loop_balanced : ∀ (fuel i : Nat) (ds : DisplayState) (a : Bool),
    (recon_loop fuel i ds).1 ≠ none →
    (recon_loop fuel i ds).2.foldl applyEv (a, false) = (a, false) := by
  intro fuel
  induction fuel with
  | zero => intro i ds a _; rfl
  | succ n ih =>
      intro i ds a h
      rw [recon_loop] at h ⊢
      by_cases hi : i < ds.display_thread_count
      · rw [if_pos hi] at h ⊢
        obtain ⟨og, hg⟩ : ∃ og, ds.display_threads.getD i none = og := ⟨_, rfl⟩
        rw [hg] at h ⊢
        cases og with
        | none => exact ih _ _ a h
        | some g =>
            dsimp only at h ⊢
            obtain ⟨rg, evsg, hrg⟩ : ∃ rg evsg, recon_group ds g = (rg, evsg) :=
              ⟨_, _, rfl⟩
            rw [hrg] at h ⊢
            cases rg with
            | none =>
                dsimp only at h
                exact absurd rfl h
            | some ds' =>
                dsimp only at h ⊢
                obtain ⟨rt, evst, hrt⟩ : ∃ rt evst, recon_loop n (i + 1) ds' = (rt, evst) :=
                  ⟨_, _, rfl⟩
                rw [hrt] at h ⊢
                dsimp only at h ⊢
                have hgb := recon_group_balanced ds g a (by rw [hrg]; simp)
                rw [hrg] at hgb
                dsimp only at hgb
                have hlb := ih (i + 1) ds' a (by rw [hrt]; exact h)
                rw [hrt] at hlb
                dsimp only at hlb
                rw [List.foldl_append, hgb, hlb]
      · rw [if_neg hi] at h ⊢
        rfl

/-- C1 (amended, theorem): the Monitor does not release the
AlarmRegistry lock before assignment; instead, for every alarm-list
and display-registry state, every DisplayRegistry lock acquisition of
a Monitor cycle is nested inside the AlarmRegistry critical section:
at every point of the cycle's lock trace, whenever `display_mutex` is
held, `alarm_mutex` is held too (the locks are always taken in the
order alarm-then-display and released in reverse), and `alarm_mutex`
is released, when the cycle completes, only after every
`display_mutex` section is closed. -/
theorem C1_monitor_lock_nesting (fuel : Nat) (l : List alarm_t) (ds : DisplayState)
    (now : Int) :
    nestOK (false, false) (monitor_cycle fuel l ds now).events = true := by
  rw [monitor_cycle]
  obtain ⟨st, o, evs, hr⟩ : ∃ st o evs,
      monitor_traverse fuel ⟨[], l, [], 0, ds, now⟩ = ⟨st, o, evs⟩ := ⟨_, _, _, rfl⟩
  rw [hr]
  have hnoA : ∀ e ∈ evs, e = LEv.lockD ∨ e = LEv.unlockD := by
    have hx := trav_noA fuel ⟨[], l, [], 0, ds, now⟩
    rw [hr] at hx
    exact hx
  cases o with
  | fellThrough =>
      dsimp only
      obtain ⟨ro, revs, hrl⟩ : ∃ ro revs, recon_loop 10 0 st.displays = (ro, revs) :=
        ⟨_, _, rfl⟩
      rw [hrl]
      have hrnoA : ∀ e ∈ revs, e = LEv.lockD ∨ e = LEv.unlockD := by
        have hx := recon_loop_noA 10 0 st.displays
        rw [hrl] at hx
        exact hx
      have happ : ∀ e ∈ evs ++ revs, e = LEv.lockD ∨ e = LEv.unlockD := by
        intro e he
        rcases List.mem_append.mp he with he | he
        · exact hnoA e he
        · exact hrnoA e he
      cases ro with
      | none =>
          dsimp only [nestOK, applyEv]
          rw [nestOK_of_noA _ false happ]
          rfl
      | some ds' =>
          dsimp only [nestOK, applyEv]
          rw [nestOK_append]
          have h1 : nestOK (true, false) (evs ++ revs) = true :=
            nestOK_of_noA _ false happ
          have h2 : (evs ++ revs).foldl applyEv (true, false) = (true, false) := by
            rw [List.foldl_append]
            have hb1 : evs.foldl applyEv (true, false) = (true, false) := by
              have hx := trav_balanced fuel ⟨[], l, [], 0, ds, now⟩ true (by rw [hr]; simp)
              rw [hr] at hx
              exact hx
            rw [hb1]
            have hx := recon_loop_balanced 10 0 st.displays true (by rw [hrl]; simp)
            rw [hrl] at hx
            exact hx
          rw [h1, h2]
          rfl
  | exited =>
      dsimp only [nestOK, applyEv]
      rw [nestOK_of_noA _ false hnoA]
      rfl
  | crashed =>
      dsimp only [nestOK, applyEv]
      rw [nestOK_of_noA _ false hnoA]
      rfl
  | fuelOut =>
      dsimp only [nestOK, applyEv]
      rw [nestOK_of_noA _ false hnoA]
      rfl
